import Mathlib

/-!
Shallow embedding of `src/climate.c` (leoframba/CS221_Project3).

The program ingests tab-delimited climate records, groups them by state
code in a fixed array `struct climate_info *states[NUM_STATES]` filled
densely from index 0 (`indexOfState` returns the first NULL slot), and
folds each record into its state's running statistics.  We model:

* C `double` values as `ℚ` (exact field arithmetic; the claims under
  study are about which values flow where, not about rounding);
* the `states` array as the `List ClimateInfo` of its non-NULL prefix —
  the C array is NULL-initialised and only ever written at the first
  NULL slot, so the non-NULL entries always form a prefix;
* the stored `ctime` date strings by the truncated-to-seconds timestamp
  they are derived from, with `none` for the uninitialised buffer that
  `malloc` leaves before any `strcpy` (the C code never initialises
  `maxTempDate`/`minTempDate`);
* an out-of-bounds array access (reading `states[NUM_STATES]` when the
  scan in `indexOfState` runs past a full table) as the `none` outcome
  of an `Option`-returning step function;
* IEEE double division by zero (which silently yields NaN/Inf rather
  than trapping) as the `none` outcome of `doubleDiv`.
-/

namespace Climate

/-- One parsed input line: the nine tab-separated fields of the TDV
format, with numeric fields already through `atof`/`atol` (the
best-effort parse upstream of the aggregation) and the two boolean flag
fields kept as raw strings, because `analyze_file` inspects only their
first character (`*token == '1'`). -/
structure Record where
  stateCode : String
  tsMillis : Int
  geohash : String
  humidity : ℚ
  snowFlag : String
  cloudCover : ℚ
  lightningFlag : String
  pressure : ℚ
  surfaceTempK : ℚ
deriving DecidableEq

/-- Mirror of `struct climate_info` (climate.c lines 77–89).
`maxTempDate`/`minTempDate` hold the truncated-seconds timestamp whose
`ctime` rendering the C code `strcpy`s into the char buffers; `none`
models the uninitialised buffer before the first update. -/
structure ClimateInfo where
  code : String
  num_records : ℕ
  totalTemp : ℚ
  totalHumidity : ℚ
  maxTemp : ℚ
  maxTempDate : Option Int
  minTemp : ℚ
  minTempDate : Option Int
  lightningStrikeCount : ℕ
  snowCoverCount : ℕ
  totalCloudCover : ℚ
deriving DecidableEq

/-- Kelvin→Fahrenheit conversion, climate.c line 238:
`double temp = atof(token) * 1.8 - 459.67;`. -/
def kelvinToF (k : ℚ) : ℚ := k * 1.8 - 459.67

/-- Converted temperature of a record, as computed once in the fold. -/
def tempOf (r : Record) : ℚ := kelvinToF r.surfaceTempK

/-- Truncated-to-seconds timestamp, climate.c line 208:
`const unsigned long currentTS = atol(token) / 1000;` (C integer
division truncates toward zero, as does `Int.tdiv`). -/
def tsSec (r : Record) : Int := Int.tdiv r.tsMillis 1000

/-- The flag test `*token == '1'` (climate.c lines 219 and 229): true
iff the field's first character is `'1'`; an empty field reads the
terminating NUL, which is not `'1'`. -/
def startsWith1 (s : String) : Bool := s.data.head? = some '1'

/-- Initialisation of a freshly `malloc`ed entry, climate.c lines
175–188: sums and counters zero, `maxTemp = -1000`, `minTemp = 1000`
("Set both cases to extremes to act as sudo infinity"); the date
buffers are left uninitialised (`none`). -/
def freshState (code : String) : ClimateInfo :=
  { code := code
    num_records := 0
    totalTemp := 0
    totalHumidity := 0
    maxTemp := -1000
    maxTempDate := none
    minTemp := 1000
    minTempDate := none
    lightningStrikeCount := 0
    snowCoverCount := 0
    totalCloudCover := 0 }

/-- The per-record fold, climate.c lines 203–251: increment the record
count, accumulate the sums, bump the flag counters when the flag
field's first character is `'1'`, and update each extremum and its
date under a strict comparison against the pre-fold extremum. -/
def foldRecord (ci : ClimateInfo) (r : Record) : ClimateInfo :=
  let currentTS := tsSec r
  let temp := tempOf r
  { ci with
    num_records := ci.num_records + 1
    totalHumidity := ci.totalHumidity + r.humidity
    snowCoverCount := ci.snowCoverCount + (if startsWith1 r.snowFlag then 1 else 0)
    totalCloudCover := ci.totalCloudCover + r.cloudCover
    lightningStrikeCount :=
      ci.lightningStrikeCount + (if startsWith1 r.lightningFlag then 1 else 0)
    totalTemp := ci.totalTemp + temp
    maxTemp := if temp > ci.maxTemp then temp else ci.maxTemp
    maxTempDate := if temp > ci.maxTemp then some currentTS else ci.maxTempDate
    minTemp := if temp < ci.minTemp then temp else ci.minTemp
    minTempDate := if temp < ci.minTemp then some currentTS else ci.minTempDate }

/-- Folding a whole sequence of records into one state's entry. -/
def foldRecords (ci : ClimateInfo) (rs : List Record) : ClimateInfo :=
  rs.foldl foldRecord ci

/-- `#define NUM_STATES 50` (climate.c line 72). -/
def NUM_STATES : ℕ := 50

/-- Position of the first entry whose `code` matches, if any — the
successful-search half of `indexOfState` (climate.c lines 110–113). -/
def findStateIdx : List ClimateInfo → String → Option ℕ
  | [], _ => none
  | ci :: rest, code =>
    if ci.code = code then some 0 else (findStateIdx rest code).map (· + 1)

/-- `indexOfState` (climate.c lines 107–120): scan for the code; on a
miss return the index of the first NULL slot, negated as a new-state
flag, with `-50` standing in for slot 0 ("Zero is a special case
because it has no sign").  The scan's loop condition reads
`states[i]`; when the table is full and the code absent it reads
`states[NUM_STATES]`, out of bounds — modelled as `none`. -/
def indexOfState (states : List ClimateInfo) (code : String) : Option Int :=
  match findStateIdx states code with
  | some i => some (i : Int)
  | none =>
    if states.length < NUM_STATES then
      some (if states.length = 0 then (-50 : Int) else -(states.length : Int))
    else
      none

/-- Placeholder entry for the (unreachable) default of a checked array
read. -/
def dummyState : ClimateInfo := freshState ""

/-- Writing `states[i] = ci` on the first NULL slot `i` of the dense
prefix (climate.c line 197). -/
def insertNew (states : List ClimateInfo) (i : ℕ) (ci : ClimateInfo) :
    List ClimateInfo :=
  states.take i ++ [ci] ++ states.drop (i + 1)

/-- One iteration of the `analyze_file` loop body (climate.c lines
166–251) on the whole state table: look the state up, allocate and
initialise it at the first NULL slot on a miss ("We handle this special
case by just setting it back to zero.  For all other cases we flip the
sign"), then fold the record into its entry.  `none` propagates the
out-of-bounds access of a full table meeting a new code. -/
def processRecord (states : List ClimateInfo) (r : Record) :
    Option (List ClimateInfo) :=
  match indexOfState states r.stateCode with
  | none => none
  | some idx =>
    if idx < 0 then
      some (insertNew states (if idx = -50 then 0 else (-idx).toNat)
        (foldRecord (freshState r.stateCode) r))
    else
      some (states.set idx.toNat (foldRecord (states.getD idx.toNat dummyState) r))

/-- `analyze_file`'s while-loop over the parsed lines of one file. -/
def analyzeRecords (states : List ClimateInfo) :
    List Record → Option (List ClimateInfo)
  | [] => some states
  | r :: rs =>
    match processRecord states r with
    | none => none
    | some states2 => analyzeRecords states2 rs

/-- One rendered per-state block of `print_report` (climate.c lines
269–279).  The three average fields model `double` divisions: `none`
is the NaN/Inf a zero divisor silently produces. -/
structure StateReport where
  code : String
  numRecords : ℕ
  avgHumidity : Option ℚ
  avgTemp : Option ℚ
  maxTemp : ℚ
  maxTempDate : Option Int
  minTemp : ℚ
  minTempDate : Option Int
  lightningStrikes : ℕ
  snowCover : ℕ
  avgCloudCover : Option ℚ
deriving DecidableEq

/-- IEEE double division as the C expression `sum / count` performs it:
no trap and no check, a zero divisor just yields a non-finite value
(`none`). -/
def doubleDiv (x : ℚ) (n : ℕ) : Option ℚ :=
  if n = 0 then none else some (x / n)

/-- The per-state body of `print_report` (climate.c lines 268–279):
every field is emitted unconditionally; the divisions by
`num_records` carry no guard. -/
def printState (ci : ClimateInfo) : StateReport :=
  { code := ci.code
    numRecords := ci.num_records
    avgHumidity := doubleDiv ci.totalHumidity ci.num_records
    avgTemp := doubleDiv ci.totalTemp ci.num_records
    maxTemp := ci.maxTemp
    maxTempDate := ci.maxTempDate
    minTemp := ci.minTemp
    minTempDate := ci.minTempDate
    lightningStrikes := ci.lightningStrikeCount
    snowCover := ci.snowCoverCount
    avgCloudCover := doubleDiv ci.totalCloudCover ci.num_records }

/-- `print_report` (climate.c lines 255–283): one block per non-NULL
entry, in array (= insertion) order. -/
def print_report (states : List ClimateInfo) : List StateReport :=
  states.map printState

/-- An input file as `main` sees it: `none` when `fopen` fails,
otherwise the parsed records of the file. -/
abbrev FileArg : Type := Option (List Record)

/-- The per-file notices of the `main` loop (climate.c lines 134–146):
`true` for a file that opened, `false` for the "Error File # i doesn't
exist!" notice. -/
def fileNotices : List FileArg → List Bool
  | [] => []
  | f :: fs => f.isSome :: fileNotices fs

/-- The file loop of `main` (climate.c lines 134–146): an unopenable
file is skipped and processing continues with the remaining files. -/
def processFiles (states : List ClimateInfo) :
    List FileArg → Option (List ClimateInfo)
  | [] => some states
  | none :: fs => processFiles states fs
  | some rs :: fs =>
    match analyzeRecords states rs with
    | none => none
    | some states2 => processFiles states2 fs

/-- Outcome of a whole run of `main`: `usageFailure` is the
`argc < 2` early `EXIT_FAILURE`; `completed` carries the per-file
open/error notices and the final report. -/
inductive RunResult where
  | usageFailure : RunResult
  | completed : List Bool → Option (List StateReport) → RunResult
deriving DecidableEq

/-- `main` (climate.c lines 122–152): fail on no file arguments,
otherwise process every file and print the report. -/
def runMain (files : List FileArg) : RunResult :=
  match files with
  | [] => RunResult.usageFailure
  | _ :: _ =>
    RunResult.completed (fileNotices files)
      ((processFiles [] files).map print_report)

/-- A record for state `c` with all numeric fields zero and both flags
off (converted temperature `0 * 1.8 - 459.67 = -459.67` F). -/
def rBasic (c : String) : Record :=
  { stateCode := c, tsMillis := 0, geohash := "g", humidity := 0,
    snowFlag := "0", cloudCover := 0, lightningFlag := "0",
    pressure := 0, surfaceTempK := 0 }

/-- A record whose Kelvin reading `-400` converts to `-1179.67` F,
strictly below the `-1000` initial sentinel. -/
def rCold : Record :=
  { stateCode := "CA", tsMillis := 5000, geohash := "g", humidity := 0,
    snowFlag := "0", cloudCover := 0, lightningFlag := "0",
    pressure := 0, surfaceTempK := -400 }

/-- A record whose Kelvin reading `-18011/60` converts to exactly
`-1000` F, tying the initial `maxTemp` sentinel. -/
def rTie : Record :=
  { stateCode := "CA", tsMillis := 7000, geohash := "g", humidity := 0,
    snowFlag := "0", cloudCover := 0, lightningFlag := "0",
    pressure := 0, surfaceTempK := -18011/60 }

/-- Two-letter state code number `i` (distinct for `i < 676`). -/
def codeOf (i : ℕ) : String :=
  String.mk [Char.ofNat (65 + i / 26), Char.ofNat (65 + i % 26)]

/-- Fifty-one records with pairwise distinct state codes. -/
def recs51 : List Record := (List.range 51).map (fun i => rBasic (codeOf i))

/-- A record whose Kelvin reading `145967/180` converts to exactly
`1000` F, tying the initial `minTemp` sentinel. -/
def rHotTie : Record :=
  { stateCode := "CA", tsMillis := 9000, geohash := "g", humidity := 0,
    snowFlag := "0", cloudCover := 0, lightningFlag := "0",
    pressure := 0, surfaceTempK := 145967/180 }

theorem foldRecord_code (ci : ClimateInfo) (r : Record) :
    (foldRecord ci r).code = ci.code := rfl

theorem foldRecord_num_records (ci : ClimateInfo) (r : Record) :
    (foldRecord ci r).num_records = ci.num_records + 1 := rfl

theorem foldRecord_totalTemp (ci : ClimateInfo) (r : Record) :
    (foldRecord ci r).totalTemp = ci.totalTemp + tempOf r := rfl

theorem foldRecord_totalHumidity (ci : ClimateInfo) (r : Record) :
    (foldRecord ci r).totalHumidity = ci.totalHumidity + r.humidity := rfl

theorem foldRecord_totalCloudCover (ci : ClimateInfo) (r : Record) :
    (foldRecord ci r).totalCloudCover = ci.totalCloudCover + r.cloudCover := rfl

theorem foldRecord_snowCoverCount (ci : ClimateInfo) (r : Record) :
    (foldRecord ci r).snowCoverCount =
      ci.snowCoverCount + (if startsWith1 r.snowFlag then 1 else 0) := rfl

theorem foldRecord_lightningStrikeCount (ci : ClimateInfo) (r : Record) :
    (foldRecord ci r).lightningStrikeCount =
      ci.lightningStrikeCount + (if startsWith1 r.lightningFlag then 1 else 0) := rfl

theorem foldRecord_maxTemp_ite (ci : ClimateInfo) (r : Record) :
    (foldRecord ci r).maxTemp =
      if tempOf r > ci.maxTemp then tempOf r else ci.maxTemp := rfl

theorem foldRecord_maxTempDate_ite (ci : ClimateInfo) (r : Record) :
    (foldRecord ci r).maxTempDate =
      if tempOf r > ci.maxTemp then some (tsSec r) else ci.maxTempDate := rfl

theorem foldRecord_minTemp_ite (ci : ClimateInfo) (r : Record) :
    (foldRecord ci r).minTemp =
      if tempOf r < ci.minTemp then tempOf r else ci.minTemp := rfl

theorem foldRecord_minTempDate_ite (ci : ClimateInfo) (r : Record) :
    (foldRecord ci r).minTempDate =
      if tempOf r < ci.minTemp then some (tsSec r) else ci.minTempDate := rfl

theorem foldRecord_maxTemp_eq_max (ci : ClimateInfo) (r : Record) :
    (foldRecord ci r).maxTemp = max ci.maxTemp (tempOf r) := by
  rw [foldRecord_maxTemp_ite]
  rcases lt_or_ge ci.maxTemp (tempOf r) with h | h
  · rw [if_pos h, max_eq_right h.le]
  · rw [if_neg (not_lt.mpr h), max_eq_left h]

theorem foldRecord_minTemp_eq_min (ci : ClimateInfo) (r : Record) :
    (foldRecord ci r).minTemp = min ci.minTemp (tempOf r) := by
  rw [foldRecord_minTemp_ite]
  rcases lt_or_ge (tempOf r) ci.minTemp with h | h
  · rw [if_pos h, min_eq_right h.le]
  · rw [if_neg (not_lt.mpr h), min_eq_left h]

theorem le_foldl_max (l : List ℚ) (b : ℚ) : b ≤ l.foldl max b := by
  induction l generalizing b with
  | nil => exact le_refl b
  | cons x l ih =>
    rw [List.foldl_cons]
    exact le_trans (le_max_left b x) (ih (max b x))

theorem foldl_max_le_iff (l : List ℚ) (b c : ℚ) :
    l.foldl max b ≤ c ↔ b ≤ c ∧ ∀ x ∈ l, x ≤ c := by
  induction l generalizing b with
  | nil => simp
  | cons a l ih => simp [ih, max_le_iff, and_assoc]

theorem foldl_min_le (l : List ℚ) (b : ℚ) : l.foldl min b ≤ b := by
  induction l generalizing b with
  | nil => exact le_refl b
  | cons x l ih =>
    rw [List.foldl_cons]
    exact le_trans (ih (min b x)) (min_le_left b x)

theorem le_foldl_min_iff (l : List ℚ) (b c : ℚ) :
    c ≤ l.foldl min b ↔ c ≤ b ∧ ∀ x ∈ l, c ≤ x := by
  induction l generalizing b with
  | nil => simp
  | cons a l ih => simp [ih, le_min_iff, and_assoc]

theorem foldRecords_nil (ci : ClimateInfo) : foldRecords ci [] = ci := rfl

theorem foldRecords_cons (ci : ClimateInfo) (r : Record) (rs : List Record) :
    foldRecords ci (r :: rs) = foldRecords (foldRecord ci r) rs := rfl

theorem foldRecords_maxTemp (rs : List Record) :
    ∀ ci : ClimateInfo,
      (foldRecords ci rs).maxTemp = (rs.map tempOf).foldl max ci.maxTemp := by
  induction rs with
  | nil => intro ci; rfl
  | cons r rs ih =>
    intro ci
    rw [foldRecords_cons, ih, List.map_cons, List.foldl_cons,
      foldRecord_maxTemp_eq_max]

theorem foldRecords_minTemp (rs : List Record) :
    ∀ ci : ClimateInfo,
      (foldRecords ci rs).minTemp = (rs.map tempOf).foldl min ci.minTemp := by
  induction rs with
  | nil => intro ci; rfl
  | cons r rs ih =>
    intro ci
    rw [foldRecords_cons, ih, List.map_cons, List.foldl_cons,
      foldRecord_minTemp_eq_min]

theorem foldRecords_snowCoverCount (rs : List Record) :
    ∀ ci : ClimateInfo,
      (foldRecords ci rs).snowCoverCount =
        ci.snowCoverCount + rs.countP (fun r => startsWith1 r.snowFlag) := by
  induction rs with
  | nil => intro ci; simp [foldRecords_nil]
  | cons r rs ih =>
    intro ci
    rw [foldRecords_cons, ih, foldRecord_snowCoverCount, List.countP_cons]
    cases h : startsWith1 r.snowFlag
    all_goals simp [h]
    all_goals omega

theorem foldRecords_lightningStrikeCount (rs : List Record) :
    ∀ ci : ClimateInfo,
      (foldRecords ci rs).lightningStrikeCount =
        ci.lightningStrikeCount + rs.countP (fun r => startsWith1 r.lightningFlag) := by
  induction rs with
  | nil => intro ci; simp [foldRecords_nil]
  | cons r rs ih =>
    intro ci
    rw [foldRecords_cons, ih, foldRecord_lightningStrikeCount, List.countP_cons]
    cases h : startsWith1 r.lightningFlag
    all_goals simp [h]
    all_goals omega

theorem foldRecords_max_stable (rs : List Record) :
    ∀ ci : ClimateInfo, (∀ r ∈ rs, tempOf r ≤ ci.maxTemp) →
      (foldRecords ci rs).maxTemp = ci.maxTemp ∧
        (foldRecords ci rs).maxTempDate = ci.maxTempDate := by
  induction rs with
  | nil => intro ci _; exact ⟨rfl, rfl⟩
  | cons r rs ih =>
    intro ci h
    have hr : ¬ tempOf r > ci.maxTemp :=
      not_lt.mpr (h r (List.mem_cons_self r rs))
    have e1 : (foldRecord ci r).maxTemp = ci.maxTemp := by
      rw [foldRecord_maxTemp_ite, if_neg hr]
    have e2 : (foldRecord ci r).maxTempDate = ci.maxTempDate := by
      rw [foldRecord_maxTempDate_ite, if_neg hr]
    have htail := ih (foldRecord ci r) (by
      intro r2 hm
      rw [e1]
      exact h r2 (List.mem_cons_of_mem r hm))
    rw [foldRecords_cons]
    exact ⟨htail.1.trans e1, htail.2.trans e2⟩

theorem foldRecords_min_stable (rs : List Record) :
    ∀ ci : ClimateInfo, (∀ r ∈ rs, ci.minTemp ≤ tempOf r) →
      (foldRecords ci rs).minTemp = ci.minTemp ∧
        (foldRecords ci rs).minTempDate = ci.minTempDate := by
  induction rs with
  | nil => intro ci _; exact ⟨rfl, rfl⟩
  | cons r rs ih =>
    intro ci h
    have hr : ¬ tempOf r < ci.minTemp :=
      not_lt.mpr (h r (List.mem_cons_self r rs))
    have e1 : (foldRecord ci r).minTemp = ci.minTemp := by
      rw [foldRecord_minTemp_ite, if_neg hr]
    have e2 : (foldRecord ci r).minTempDate = ci.minTempDate := by
      rw [foldRecord_minTempDate_ite, if_neg hr]
    have htail := ih (foldRecord ci r) (by
      intro r2 hm
      rw [e1]
      exact h r2 (List.mem_cons_of_mem r hm))
    rw [foldRecords_cons]
    exact ⟨htail.1.trans e1, htail.2.trans e2⟩

theorem foldRecords_maxTempDate_first (rs : List Record) :
    ∀ ci : ClimateInfo, ci.maxTemp < (rs.map tempOf).foldl max ci.maxTemp →
      (foldRecords ci rs).maxTempDate =
        (rs.find? (fun r =>
          decide (tempOf r = (rs.map tempOf).foldl max ci.maxTemp))).map tsSec := by
  induction rs with
  | nil => intro ci h; exact absurd h (lt_irrefl _)
  | cons r rs ih =>
    intro ci h
    by_cases hr : tempOf r > ci.maxTemp
    · have e1 : (foldRecord ci r).maxTemp = tempOf r := by
        rw [foldRecord_maxTemp_ite, if_pos hr]
      have e2 : (foldRecord ci r).maxTempDate = some (tsSec r) := by
        rw [foldRecord_maxTempDate_ite, if_pos hr]
      have hM : (List.map tempOf (r :: rs)).foldl max ci.maxTemp =
          (List.map tempOf rs).foldl max (tempOf r) := by
        rw [List.map_cons, List.foldl_cons, max_eq_right hr.le]
      by_cases htop : (List.map tempOf rs).foldl max (tempOf r) = tempOf r
      · have hall : ∀ x ∈ List.map tempOf rs, x ≤ tempOf r :=
          ((foldl_max_le_iff _ _ _).mp htop.le).2
        have hstable := foldRecords_max_stable rs (foldRecord ci r) (by
          intro r2 hm
          rw [e1]
          exact hall (tempOf r2) (List.mem_map_of_mem tempOf hm))
        rw [foldRecords_cons, hstable.2, e2, hM,
          List.find?_cons_of_pos
            (p := fun r2 => decide (tempOf r2 = (List.map tempOf rs).foldl max (tempOf r)))
            rs (decide_eq_true htop.symm)]
        rfl
      · have hlt : tempOf r < (List.map tempOf rs).foldl max (tempOf r) :=
          lt_of_le_of_ne (le_foldl_max _ _) (fun hc => htop hc.symm)
        have hrec := ih (foldRecord ci r) (by rw [e1]; exact hlt)
        rw [foldRecords_cons, hrec, e1, hM,
          List.find?_cons_of_neg
            (p := fun r2 => decide (tempOf r2 = (List.map tempOf rs).foldl max (tempOf r)))
            rs (fun hc => hlt.ne (of_decide_eq_true hc))]
    · have hle : tempOf r ≤ ci.maxTemp := not_lt.mp hr
      have e1 : (foldRecord ci r).maxTemp = ci.maxTemp := by
        rw [foldRecord_maxTemp_ite, if_neg hr]
      have e2 : (foldRecord ci r).maxTempDate = ci.maxTempDate := by
        rw [foldRecord_maxTempDate_ite, if_neg hr]
      have hM : (List.map tempOf (r :: rs)).foldl max ci.maxTemp =
          (List.map tempOf rs).foldl max ci.maxTemp := by
        rw [List.map_cons, List.foldl_cons, max_eq_left hle]
      have h2 : ci.maxTemp < (List.map tempOf rs).foldl max ci.maxTemp := by
        rw [← hM]; exact h
      have hrec := ih (foldRecord ci r) (by rw [e1]; exact h2)
      have hne : tempOf r ≠ (List.map tempOf rs).foldl max ci.maxTemp :=
        (lt_of_le_of_lt hle h2).ne
      rw [foldRecords_cons, hrec, e1, hM,
        List.find?_cons_of_neg
          (p := fun r2 => decide (tempOf r2 = (List.map tempOf rs).foldl max ci.maxTemp))
          rs (fun hc => hne (of_decide_eq_true hc))]

theorem foldRecords_minTempDate_first (rs : List Record) :
    ∀ ci : ClimateInfo, (rs.map tempOf).foldl min ci.minTemp < ci.minTemp →
      (foldRecords ci rs).minTempDate =
        (rs.find? (fun r =>
          decide (tempOf r = (rs.map tempOf).foldl min ci.minTemp))).map tsSec := by
  induction rs with
  | nil => intro ci h; exact absurd h (lt_irrefl _)
  | cons r rs ih =>
    intro ci h
    by_cases hr : tempOf r < ci.minTemp
    · have e1 : (foldRecord ci r).minTemp = tempOf r := by
        rw [foldRecord_minTemp_ite, if_pos hr]
      have e2 : (foldRecord ci r).minTempDate = some (tsSec r) := by
        rw [foldRecord_minTempDate_ite, if_pos hr]
      have hM : (List.map tempOf (r :: rs)).foldl min ci.minTemp =
          (List.map tempOf rs).foldl min (tempOf r) := by
        rw [List.map_cons, List.foldl_cons, min_eq_right hr.le]
      by_cases htop : (List.map tempOf rs).foldl min (tempOf r) = tempOf r
      · have hall : ∀ x ∈ List.map tempOf rs, tempOf r ≤ x :=
          ((le_foldl_min_iff _ _ _).mp htop.ge).2
        have hstable := foldRecords_min_stable rs (foldRecord ci r) (by
          intro r2 hm
          rw [e1]
          exact hall (tempOf r2) (List.mem_map_of_mem tempOf hm))
        rw [foldRecords_cons, hstable.2, e2, hM,
          List.find?_cons_of_pos
            (p := fun r2 => decide (tempOf r2 = (List.map tempOf rs).foldl min (tempOf r)))
            rs (decide_eq_true htop.symm)]
        rfl
      · have hlt : (List.map tempOf rs).foldl min (tempOf r) < tempOf r :=
          lt_of_le_of_ne (foldl_min_le _ _) htop
        have hrec := ih (foldRecord ci r) (by rw [e1]; exact hlt)
        rw [foldRecords_cons, hrec, e1, hM,
          List.find?_cons_of_neg
            (p := fun r2 => decide (tempOf r2 = (List.map tempOf rs).foldl min (tempOf r)))
            rs (fun hc => hlt.ne.symm (of_decide_eq_true hc))]
    · have hle : ci.minTemp ≤ tempOf r := not_lt.mp hr
      have e1 : (foldRecord ci r).minTemp = ci.minTemp := by
        rw [foldRecord_minTemp_ite, if_neg hr]
      have e2 : (foldRecord ci r).minTempDate = ci.minTempDate := by
        rw [foldRecord_minTempDate_ite, if_neg hr]
      have hM : (List.map tempOf (r :: rs)).foldl min ci.minTemp =
          (List.map tempOf rs).foldl min ci.minTemp := by
        rw [List.map_cons, List.foldl_cons, min_eq_left hle]
      have h2 : (List.map tempOf rs).foldl min ci.minTemp < ci.minTemp := by
        rw [← hM]; exact h
      have hrec := ih (foldRecord ci r) (by rw [e1]; exact h2)
      have hne : tempOf r ≠ (List.map tempOf rs).foldl min ci.minTemp :=
        (lt_of_lt_of_le h2 hle).ne.symm
      rw [foldRecords_cons, hrec, e1, hM,
        List.find?_cons_of_neg
          (p := fun r2 => decide (tempOf r2 = (List.map tempOf rs).foldl min ci.minTemp))
          rs (fun hc => hne (of_decide_eq_true hc))]

theorem findStateIdx_eq_none (states : List ClimateInfo) (code : String) :
    findStateIdx states code = none ↔ ∀ ci ∈ states, ci.code ≠ code := by
  induction states with
  | nil => simp [findStateIdx]
  | cons cj rest ih =>
    by_cases h : cj.code = code
    · simp [findStateIdx, h]
    · simp [findStateIdx, h, ih]

theorem findStateIdx_some (states : List ClimateInfo) (code : String) :
    ∀ i : ℕ, findStateIdx states code = some i →
      ∃ ci, states[i]? = some ci ∧ ci.code = code := by
  induction states with
  | nil => intro i h; simp [findStateIdx] at h
  | cons cj rest ih =>
    intro i h
    by_cases hc : cj.code = code
    · rw [findStateIdx, if_pos hc] at h
      have h0 : i = 0 := by simpa using h.symm
      subst h0
      exact ⟨cj, List.getElem?_cons_zero, hc⟩
    · rw [findStateIdx, if_neg hc] at h
      cases hrec : findStateIdx rest code with
      | none => rw [hrec] at h; simp at h
      | some j =>
        rw [hrec] at h
        have hj : j + 1 = i := by simpa using h
        obtain ⟨ci, hg, hcode⟩ := ih j hrec
        subst hj
        exact ⟨ci, by rw [List.getElem?_cons_succ]; exact hg, hcode⟩

theorem indexOfState_found (states : List ClimateInfo) (code : String) (i : ℕ)
    (hf : findStateIdx states code = some i) :
    indexOfState states code = some (i : Int) := by
  unfold indexOfState
  rw [hf]

theorem indexOfState_new (states : List ClimateInfo) (code : String)
    (hf : findStateIdx states code = none) (hlen : states.length < NUM_STATES) :
    indexOfState states code =
      some (if states.length = 0 then (-50 : Int) else -(states.length : Int)) := by
  unfold indexOfState
  simp only [hf]
  rw [if_pos hlen]

theorem indexOfState_oob (states : List ClimateInfo) (code : String)
    (hf : findStateIdx states code = none) (hlen : ¬ states.length < NUM_STATES) :
    indexOfState states code = none := by
  unfold indexOfState
  simp only [hf]
  rw [if_neg hlen]

theorem processRecord_found (states : List ClimateInfo) (r : Record) (i : ℕ)
    (ci : ClimateInfo) (hf : findStateIdx states r.stateCode = some i)
    (hci : states[i]? = some ci) :
    processRecord states r = some (states.set i (foldRecord ci r)) := by
  unfold processRecord
  simp only [indexOfState_found states r.stateCode i hf]
  rw [if_neg (not_lt.mpr (Int.natCast_nonneg i))]
  have hg : states.getD i dummyState = ci := by
    rw [List.getD_eq_getElem?_getD, hci]
    rfl
  rw [Int.toNat_natCast, hg]

theorem processRecord_new (states : List ClimateInfo) (r : Record)
    (hf : findStateIdx states r.stateCode = none)
    (hlen : states.length < NUM_STATES) :
    processRecord states r =
      some (states ++ [foldRecord (freshState r.stateCode) r]) := by
  unfold processRecord
  simp only [indexOfState_new states r.stateCode hf hlen]
  by_cases hz : states.length = 0
  · have hnil : states = [] := List.length_eq_zero.mp hz
    subst hnil
    rfl
  · rw [if_neg hz]
    have hc1 : (-(states.length : Int)) < 0 := by omega
    rw [if_pos hc1]
    have hc2 : ¬ (-(states.length : Int)) = -50 := by
      have : states.length ≠ NUM_STATES := Nat.ne_of_lt hlen
      unfold NUM_STATES at this
      omega
    rw [if_neg hc2]
    have hc3 : (-(-(states.length : Int))).toNat = states.length := by omega
    rw [hc3]
    unfold insertNew
    rw [List.take_length, List.drop_eq_nil_of_le (Nat.le_succ _)]
    simp

theorem processRecord_oob (states : List ClimateInfo) (r : Record)
    (hf : findStateIdx states r.stateCode = none)
    (hlen : ¬ states.length < NUM_STATES) :
    processRecord states r = none := by
  unfold processRecord
  simp only [indexOfState_oob states r.stateCode hf hlen]

theorem processRecord_none_char (states : List ClimateInfo) (r : Record) :
    processRecord states r = none ↔
      NUM_STATES ≤ states.length ∧ ∀ ci ∈ states, ci.code ≠ r.stateCode := by
  constructor
  · intro h
    cases hf : findStateIdx states r.stateCode with
    | some i =>
      obtain ⟨ci, hgi, _⟩ := findStateIdx_some states r.stateCode i hf
      rw [processRecord_found states r i ci hf hgi] at h
      exact absurd h (by simp)
    | none =>
      by_cases hlen : states.length < NUM_STATES
      · rw [processRecord_new states r hf hlen] at h
        exact absurd h (by simp)
      · exact ⟨Nat.le_of_not_lt hlen, (findStateIdx_eq_none _ _).mp hf⟩
  · rintro ⟨hlen, hall⟩
    exact processRecord_oob states r ((findStateIdx_eq_none _ _).mpr hall)
      (Nat.not_lt.mpr hlen)

theorem processRecord_mem_src (states : List ClimateInfo) (r : Record)
    (states2 : List ClimateInfo) (hp : processRecord states r = some states2) :
    ∀ ci ∈ states2, ci ∈ states ∨ ∃ cj, ci = foldRecord cj r := by
  cases hf : findStateIdx states r.stateCode with
  | some i =>
    obtain ⟨cj, hgj, _⟩ := findStateIdx_some states r.stateCode i hf
    rw [processRecord_found states r i cj hf hgj] at hp
    have he : states.set i (foldRecord cj r) = states2 := Option.some.inj hp
    subst he
    intro ci hm
    rcases List.mem_or_eq_of_mem_set hm with h | h
    · exact Or.inl h
    · exact Or.inr ⟨cj, h⟩
  | none =>
    by_cases hlen : states.length < NUM_STATES
    · rw [processRecord_new states r hf hlen] at hp
      have he : states ++ [foldRecord (freshState r.stateCode) r] = states2 :=
        Option.some.inj hp
      subst he
      intro ci hm
      rcases List.mem_append.mp hm with h | h
      · exact Or.inl h
      · exact Or.inr ⟨freshState r.stateCode, List.mem_singleton.mp h⟩
    · rw [processRecord_oob states r hf hlen] at hp
      exact absurd hp (by simp)

theorem analyzeRecords_pos (rs : List Record) :
    ∀ states states2 : List ClimateInfo, analyzeRecords states rs = some states2 →
      (∀ ci ∈ states, 1 ≤ ci.num_records) → ∀ ci ∈ states2, 1 ≤ ci.num_records := by
  induction rs with
  | nil =>
    intro s s2 h hinv
    have he : s = s2 := Option.some.inj h
    subst he
    exact hinv
  | cons r rs ih =>
    intro s s2 h hinv
    cases hp : processRecord s r with
    | none =>
      rw [analyzeRecords, hp] at h
      exact absurd h (by simp)
    | some t =>
      rw [analyzeRecords, hp] at h
      refine ih t s2 h ?_
      intro ci hm
      rcases processRecord_mem_src s r t hp ci hm with hold | ⟨cj, he⟩
      · exact hinv ci hold
      · rw [he, foldRecord_num_records]
        exact Nat.le_add_left 1 cj.num_records

theorem fileNotices_append (l1 l2 : List FileArg) :
    fileNotices (l1 ++ l2) = fileNotices l1 ++ fileNotices l2 := by
  induction l1 with
  | nil => rfl
  | cons f fs ih => simp [fileNotices, ih]

theorem fileNotices_skip (l1 l2 : List FileArg) :
    fileNotices (l1 ++ none :: l2) = fileNotices l1 ++ false :: fileNotices l2 := by
  rw [fileNotices_append]
  rfl

theorem processFiles_skip_none (fs1 : List FileArg) :
    ∀ (s : List ClimateInfo) (fs2 : List FileArg),
      processFiles s (fs1 ++ none :: fs2) = processFiles s (fs1 ++ fs2) := by
  induction fs1 with
  | nil => intro s fs2; rfl
  | cons f fs1 ih =>
    intro s fs2
    cases f with
    | none =>
      simp only [List.cons_append, processFiles]
      exact ih s fs2
    | some rs =>
      simp only [List.cons_append, processFiles]
      cases h : analyzeRecords s rs with
      | none => rfl
      | some t => exact ih t fs2

theorem runMain_cons (f : FileArg) (l : List FileArg) :
    runMain (f :: l) =
      RunResult.completed (fileNotices (f :: l))
        ((processFiles [] (f :: l)).map print_report) := rfl

/-- C1 counterexample: the initial sentinel `maxTemp = -1000` is finite,
so a single folded record whose converted temperature `-1179.67` lies
below it leaves `maxTemp` at `-1000`: the stored maximum is neither the
true maximum of the folded temperatures nor attained by any folded
record, refuting the claimed exact-extremum property. -/
theorem maxTemp_not_true_max_at_cold_record :
    tempOf rCold < -1000 ∧
    (foldRecords (freshState "CA") [rCold]).maxTemp = -1000 ∧
    (foldRecords (freshState "CA") [rCold]).maxTemp ≠ tempOf rCold := by
  have ht : tempOf rCold = -117967/100 := by norm_num [tempOf, kelvinToF, rCold]
  have h1 : tempOf rCold < -1000 := by rw [ht]; norm_num
  have hn : ¬ ((freshState "CA").maxTemp < tempOf rCold) := by
    rw [ht]
    norm_num [freshState]
  have h2 : (foldRecords (freshState "CA") [rCold]).maxTemp = -1000 := by
    rw [foldRecords_cons, foldRecords_nil, foldRecord_maxTemp_ite, if_neg hn]
    rfl
  refine ⟨h1, h2, ?_⟩
  rw [h2, ht]
  norm_num

/-- C1 (amended): after folding any sequence of records into a fresh
state entry, `maxTemp` equals the maximum of the finite sentinel
`-1000` and all folded converted temperatures, and `minTemp` equals the
minimum of the sentinel `1000` and all folded converted temperatures;
in particular the stored extrema equal the true extrema exactly when
some folded temperature rises above `-1000` (resp. falls below
`1000`). -/
theorem foldRecords_extrema_eq_foldl_sentinels (c : String) (rs : List Record) :
    (foldRecords (freshState c) rs).maxTemp = (rs.map tempOf).foldl max (-1000) ∧
    (foldRecords (freshState c) rs).minTemp = (rs.map tempOf).foldl min 1000 := by
  constructor
  · rw [foldRecords_maxTemp]
    rfl
  · rw [foldRecords_minTemp]
    rfl

/-- C2 counterexample: `findOrCreate` initialises `maxTemp` to the
finite magic number `-1000` (climate.c line 187), not negative
infinity, and the first real observation — here with converted
temperature `-1179.67` — fails to override it, refuting the claimed
sentinel guarantee. -/
theorem freshState_sentinel_not_overridden :
    tempOf rCold < -1000 ∧
    (foldRecord (freshState "CA") rCold).maxTemp = -1000 ∧
    (foldRecord (freshState "CA") rCold).maxTemp ≠ tempOf rCold := by
  have ht : tempOf rCold = -117967/100 := by norm_num [tempOf, kelvinToF, rCold]
  have h1 : tempOf rCold < -1000 := by rw [ht]; norm_num
  have hn : ¬ ((freshState "CA").maxTemp < tempOf rCold) := by
    rw [ht]
    norm_num [freshState]
  have h2 : (foldRecord (freshState "CA") rCold).maxTemp = -1000 := by
    rw [foldRecord_maxTemp_ite, if_neg hn]
    rfl
  refine ⟨h1, h2, ?_⟩
  rw [h2, ht]
  norm_num

/-- C2 (amended): a newly created state entry has all sums and counters
zero and the finite sentinels `maxTemp = -1000`, `minTemp = 1000`
(climate.c lines 179–188); the first observation overrides the max
(resp. min) sentinel when its converted temperature lies strictly above
`-1000` (resp. strictly below `1000`), but the sentinels are finite
magic numbers, not infinities. -/
theorem freshState_finite_sentinel_initialization (c : String) (r : Record) :
    (freshState c).code = c ∧
    (freshState c).num_records = 0 ∧
    (freshState c).totalHumidity = 0 ∧
    (freshState c).totalCloudCover = 0 ∧
    (freshState c).lightningStrikeCount = 0 ∧
    (freshState c).snowCoverCount = 0 ∧
    (freshState c).totalTemp = 0 ∧
    (freshState c).maxTemp = -1000 ∧
    (freshState c).minTemp = 1000 ∧
    (-1000 < tempOf r → (foldRecord (freshState c) r).maxTemp = tempOf r) ∧
    (tempOf r < 1000 → (foldRecord (freshState c) r).minTemp = tempOf r) := by
  refine ⟨rfl, rfl, rfl, rfl, rfl, rfl, rfl, rfl, rfl, ?_, ?_⟩
  · intro h
    rw [foldRecord_maxTemp_ite,
      if_pos (show tempOf r > (freshState c).maxTemp from h)]
  · intro h
    rw [foldRecord_minTemp_ite,
      if_pos (show tempOf r < (freshState c).minTemp from h)]

theorem freshState_finite_sentinel_initialization_witness :
    (-1000 < tempOf (rBasic "CA")) ∧ (tempOf (rBasic "CA") < 1000) ∧
    (foldRecord (freshState "CA") (rBasic "CA")).maxTemp = tempOf (rBasic "CA") ∧
    (foldRecord (freshState "CA") (rBasic "CA")).minTemp = tempOf (rBasic "CA") := by
  have h1 : -1000 < tempOf (rBasic "CA") := by norm_num [tempOf, kelvinToF, rBasic]
  have h2 : tempOf (rBasic "CA") < 1000 := by norm_num [tempOf, kelvinToF, rBasic]
  obtain ⟨-, -, -, -, -, -, -, -, -, hmax, hmin⟩ :=
    freshState_finite_sentinel_initialization "CA" (rBasic "CA")
  exact ⟨h1, h2, hmax h1, hmin h2⟩

/-- C3 counterexample: a record whose converted temperature is exactly
`-1000` ties the initial `maxTemp` sentinel; the strict `>` update does
not fire, so after the fold the stored extremum `-1000` IS achieved by
that first record, yet its timestamp was never stored (`maxTempDate`
stays at its uninitialised value), refuting "the extremum timestamp
always reflects the FIRST record that achieved that extreme value". -/
theorem tie_at_sentinel_drops_first_timestamp :
    (foldRecords (freshState "CA") [rTie]).maxTemp = tempOf rTie ∧
    (foldRecords (freshState "CA") [rTie]).maxTempDate = none ∧
    (foldRecords (freshState "CA") [rTie]).maxTempDate ≠ some (tsSec rTie) := by
  have ht : tempOf rTie = -1000 := by norm_num [tempOf, kelvinToF, rTie]
  have hn : ¬ ((freshState "CA").maxTemp < tempOf rTie) := by
    rw [ht]
    norm_num [freshState]
  have h1 : (foldRecords (freshState "CA") [rTie]).maxTemp = tempOf rTie := by
    rw [foldRecords_cons, foldRecords_nil, foldRecord_maxTemp_ite, if_neg hn, ht]
    rfl
  have h2 : (foldRecords (freshState "CA") [rTie]).maxTempDate = none := by
    rw [foldRecords_cons, foldRecords_nil, foldRecord_maxTempDate_ite, if_neg hn]
    rfl
  refine ⟨h1, h2, ?_⟩
  rw [h2]
  simp

/-- C3 (amended): extrema and their dates are updated only under strict
`>` / `<` comparison — a record whose converted temperature equals the
current extremum changes neither the extremum nor its stored date — and
consequently, whenever the final extremum lies strictly inside the
`(-1000, 1000)` sentinel range on the relevant side, the stored date is
the timestamp of the FIRST record achieving that extremum; a record
tying the sentinel exactly is the one exception (see the
counterexample). -/
theorem strict_extrema_update_first_achiever (ci : ClimateInfo)
    (rmax rmin : Record) (c : String) (rs : List Record)
    (h1 : tempOf rmax = ci.maxTemp)
    (h2 : tempOf rmin = ci.minTemp)
    (h3 : -1000 < (rs.map tempOf).foldl max (-1000))
    (h4 : (rs.map tempOf).foldl min 1000 < 1000) :
    (foldRecord ci rmax).maxTemp = ci.maxTemp ∧
    (foldRecord ci rmax).maxTempDate = ci.maxTempDate ∧
    (foldRecord ci rmin).minTemp = ci.minTemp ∧
    (foldRecord ci rmin).minTempDate = ci.minTempDate ∧
    (foldRecords (freshState c) rs).maxTempDate =
      (rs.find? (fun r =>
        decide (tempOf r = (rs.map tempOf).foldl max (-1000)))).map tsSec ∧
    (foldRecords (freshState c) rs).minTempDate =
      (rs.find? (fun r =>
        decide (tempOf r = (rs.map tempOf).foldl min 1000))).map tsSec := by
  have hnmax : ¬ (ci.maxTemp < tempOf rmax) := not_lt.mpr (le_of_eq h1)
  have hnmin : ¬ (tempOf rmin < ci.minTemp) := not_lt.mpr (le_of_eq h2.symm)
  refine ⟨?_, ?_, ?_, ?_, ?_, ?_⟩
  · rw [foldRecord_maxTemp_ite, if_neg hnmax]
  · rw [foldRecord_maxTempDate_ite, if_neg hnmax]
  · rw [foldRecord_minTemp_ite, if_neg hnmin]
  · rw [foldRecord_minTempDate_ite, if_neg hnmin]
  · exact foldRecords_maxTempDate_first rs (freshState c) h3
  · exact foldRecords_minTempDate_first rs (freshState c) h4

theorem strict_extrema_update_first_achiever_witness :
    tempOf rTie = (freshState "TX").maxTemp ∧
    tempOf rHotTie = (freshState "TX").minTemp ∧
    (-1000 < ([rBasic "CA"].map tempOf).foldl max (-1000)) ∧
    (([rBasic "CA"].map tempOf).foldl min 1000 < 1000) ∧
    ((foldRecord (freshState "TX") rTie).maxTemp = (freshState "TX").maxTemp ∧
     (foldRecord (freshState "TX") rTie).maxTempDate = (freshState "TX").maxTempDate ∧
     (foldRecord (freshState "TX") rHotTie).minTemp = (freshState "TX").minTemp ∧
     (foldRecord (freshState "TX") rHotTie).minTempDate = (freshState "TX").minTempDate ∧
     (foldRecords (freshState "CA") [rBasic "CA"]).maxTempDate =
       ([rBasic "CA"].find? (fun r =>
         decide (tempOf r = ([rBasic "CA"].map tempOf).foldl max (-1000)))).map tsSec ∧
     (foldRecords (freshState "CA") [rBasic "CA"]).minTempDate =
       ([rBasic "CA"].find? (fun r =>
         decide (tempOf r = ([rBasic "CA"].map tempOf).foldl min 1000))).map tsSec) := by
  have hb : tempOf (rBasic "CA") = -45967/100 := by
    norm_num [tempOf, kelvinToF, rBasic]
  have h1 : tempOf rTie = (freshState "TX").maxTemp := by
    norm_num [tempOf, kelvinToF, rTie, freshState]
  have h2 : tempOf rHotTie = (freshState "TX").minTemp := by
    norm_num [tempOf, kelvinToF, rHotTie, freshState]
  have h3 : -1000 < ([rBasic "CA"].map tempOf).foldl max (-1000) := by
    simp only [List.map_cons, List.map_nil, List.foldl_cons, List.foldl_nil]
    rw [hb, max_eq_right (by norm_num : (-1000 : ℚ) ≤ -45967/100)]
    norm_num
  have h4 : ([rBasic "CA"].map tempOf).foldl min 1000 < 1000 := by
    simp only [List.map_cons, List.map_nil, List.foldl_cons, List.foldl_nil]
    rw [hb, min_eq_right (by norm_num : (-45967/100 : ℚ) ≤ 1000)]
    norm_num
  exact ⟨h1, h2, h3, h4,
    strict_extrema_update_first_achiever (freshState "TX") rTie rHotTie "CA"
      [rBasic "CA"] h1 h2 h3 h4⟩

/-- C4 counterexample: `print_report` renders a zero-record state
silently and in full — the average fields are the unguarded divisions
`sum / 0` (a NaN, modelled `none`) and every other field is emitted —
rather than detecting the zero record count defensively; there is no
assert or fatal path in `print_report` at all (climate.c lines
266–280). -/
theorem print_report_renders_zero_record_state :
    print_report [freshState "CA"] =
      [{ code := "CA", numRecords := 0, avgHumidity := none, avgTemp := none,
         maxTemp := -1000, maxTempDate := none, minTemp := 1000,
         minTempDate := none, lightningStrikes := 0, snowCover := 0,
         avgCloudCover := none }] := rfl

/-- C4 (amended): the divisions in `print_report` carry no zero-record
guard: a state entry with `num_records = 0` is rendered anyway, with
every non-average field emitted unchanged and its three averages the
silent result of dividing by zero (NaN, modelled `none`). -/
theorem printState_divides_unconditionally (ci : ClimateInfo)
    (h : ci.num_records = 0) :
    printState ci =
      { code := ci.code, numRecords := 0, avgHumidity := none, avgTemp := none,
        maxTemp := ci.maxTemp, maxTempDate := ci.maxTempDate,
        minTemp := ci.minTemp, minTempDate := ci.minTempDate,
        lightningStrikes := ci.lightningStrikeCount,
        snowCover := ci.snowCoverCount, avgCloudCover := none } := by
  unfold printState doubleDiv
  rw [h]
  simp

theorem printState_divides_unconditionally_witness :
    (freshState "CA").num_records = 0 ∧
    printState (freshState "CA") =
      { code := "CA", numRecords := 0, avgHumidity := none, avgTemp := none,
        maxTemp := -1000, maxTempDate := none, minTemp := 1000,
        minTempDate := none, lightningStrikes := 0, snowCover := 0,
        avgCloudCover := none } :=
  ⟨rfl, printState_divides_unconditionally (freshState "CA") rfl⟩

/-- C5 counterexample: the state table is the fixed 50-slot array
`states[NUM_STATES]` and `indexOfState`'s scan has no bound check, so
an input with 51 pairwise distinct state codes drives the scan past the
end of a full table — the out-of-bounds access modelled by `none` —
refuting the claimed growable, capacity-unbounded mapping. -/
theorem analyzeRecords_oob_at_51_codes : analyzeRecords [] recs51 = none := by
  decide

/-- C5 (amended): the mapping is a fixed array of `NUM_STATES = 50`
slots scanned without a bound check: processing a record stays
in bounds iff its state code is already present or the table still has
a free slot, and goes out of bounds (modelled `none`) exactly when the
table already holds 50 entries and the record carries a 51st distinct
code. -/
theorem processRecord_oob_iff_full_and_new (states : List ClimateInfo)
    (r : Record) :
    processRecord states r = none ↔
      NUM_STATES ≤ states.length ∧ ∀ ci ∈ states, ci.code ≠ r.stateCode :=
  processRecord_none_char states r

/-- C6: each fold converts the record's surface temperature from
Kelvin to Fahrenheit by exactly `F = K * 1.8 - 459.67` and uses that
one converted value everywhere: it is the value added to the
temperature sum and the value compared into the max/min extrema
(climate.c lines 236–251). -/
theorem foldRecord_converts_kelvin_once (ci : ClimateInfo) (r : Record)
    (k : ℚ) :
    kelvinToF k = k * 1.8 - 459.67 ∧
    (foldRecord ci r).totalTemp = ci.totalTemp + kelvinToF r.surfaceTempK ∧
    (foldRecord ci r).maxTemp = max ci.maxTemp (kelvinToF r.surfaceTempK) ∧
    (foldRecord ci r).minTemp = min ci.minTemp (kelvinToF r.surfaceTempK) :=
  ⟨rfl, foldRecord_totalTemp ci r, foldRecord_maxTemp_eq_max ci r,
    foldRecord_minTemp_eq_min ci r⟩

/-- C7: after folding any sequence of records into a fresh state entry,
`snowCoverCount` is exactly the number of records whose snow-flag field
begins with the character `'1'`, and `lightningStrikeCount` is exactly
the number whose lightning-flag field begins with `'1'`; any other
first character — including the NUL of an empty field — contributes
nothing (climate.c lines 217–231). -/
theorem foldRecords_flag_counters (c : String) (rs : List Record) :
    (foldRecords (freshState c) rs).snowCoverCount =
      rs.countP (fun r => startsWith1 r.snowFlag) ∧
    (foldRecords (freshState c) rs).lightningStrikeCount =
      rs.countP (fun r => startsWith1 r.lightningFlag) := by
  constructor
  · rw [foldRecords_snowCoverCount]
    exact Nat.zero_add _
  · rw [foldRecords_lightningStrikeCount]
    exact Nat.zero_add _

/-- C8: an unopenable file anywhere in a non-empty argument list only
produces that file's error notice: the run is not aborted, every other
file is still processed, and the final report is exactly the report of
the remaining files (climate.c lines 134–149). -/
theorem runMain_skips_unopenable_file (fs1 fs2 : List FileArg) :
    runMain (fs1 ++ none :: fs2) =
      RunResult.completed (fileNotices fs1 ++ false :: fileNotices fs2)
        ((processFiles [] (fs1 ++ fs2)).map print_report) := by
  cases fs1 with
  | nil => rfl
  | cons f l =>
    rw [List.cons_append, runMain_cons]
    rw [← List.cons_append]
    rw [fileNotices_skip, processFiles_skip_none]

/-- C9: folding a record only touches its own state's entry: any entry
of the table whose code differs from the record's state code is left
exactly where (and as) it was, so interleaved records for two states
build two independent entries (climate.c lines 166–203). -/
theorem processRecord_preserves_other_states (states : List ClimateInfo)
    (r : Record) (states2 : List ClimateInfo) (k : ℕ) (ci : ClimateInfo)
    (h1 : processRecord states r = some states2)
    (h2 : states[k]? = some ci)
    (h3 : ci.code ≠ r.stateCode) :
    states2[k]? = some ci := by
  cases hf : findStateIdx states r.stateCode with
  | some i =>
    obtain ⟨cj, hgj, hcj⟩ := findStateIdx_some states r.stateCode i hf
    rw [processRecord_found states r i cj hf hgj] at h1
    have he : states.set i (foldRecord cj r) = states2 := Option.some.inj h1
    subst he
    have hki : i ≠ k := by
      intro he2
      rw [he2] at hgj
      have hcc : ci = cj := Option.some.inj (h2.symm.trans hgj)
      exact h3 (by rw [hcc]; exact hcj)
    rw [List.getElem?_set_ne hki]
    exact h2
  | none =>
    by_cases hlen : states.length < NUM_STATES
    · rw [processRecord_new states r hf hlen] at h1
      have he : states ++ [foldRecord (freshState r.stateCode) r] = states2 :=
        Option.some.inj h1
      subst he
      obtain ⟨hk, -⟩ := List.getElem?_eq_some_iff.mp h2
      rw [List.getElem?_append_left hk]
      exact h2
    · rw [processRecord_oob states r hf hlen] at h1
      exact absurd h1 (by simp)

theorem processRecord_preserves_other_states_witness :
    processRecord [freshState "TX"] (rBasic "CA") =
      some [freshState "TX", foldRecord (freshState "CA") (rBasic "CA")] ∧
    ([freshState "TX"] : List ClimateInfo)[0]? = some (freshState "TX") ∧
    (freshState "TX").code ≠ (rBasic "CA").stateCode ∧
    ([freshState "TX",
      foldRecord (freshState "CA") (rBasic "CA")] : List ClimateInfo)[0]? =
      some (freshState "TX") := by
  have h1 : processRecord [freshState "TX"] (rBasic "CA") =
      some [freshState "TX", foldRecord (freshState "CA") (rBasic "CA")] := rfl
  have h2 : ([freshState "TX"] : List ClimateInfo)[0]? =
      some (freshState "TX") := rfl
  have h3 : (freshState "TX").code ≠ (rBasic "CA").stateCode := by decide
  exact ⟨h1, h2, h3,
    processRecord_preserves_other_states [freshState "TX"] (rBasic "CA") _ 0
      (freshState "TX") h1 h2 h3⟩

/-- C10: every entry of a table produced by analysing any record list
from the empty table has `num_records ≥ 1` — creation is immediately
followed by the record-count increment in the same loop iteration
(climate.c lines 171–203) — so each division by `num_records` in the
report of an actually processed input is by a positive count and its
average is a real value, not NaN. -/
theorem analyzeRecords_entries_have_records (rs : List Record)
    (t : List ClimateInfo) (ci : ClimateInfo)
    (h1 : analyzeRecords [] rs = some t) (h2 : ci ∈ t) :
    1 ≤ ci.num_records ∧
    (printState ci).avgHumidity.isSome = true ∧
    (printState ci).avgTemp.isSome = true ∧
    (printState ci).avgCloudCover.isSome = true := by
  have hpos : 1 ≤ ci.num_records :=
    analyzeRecords_pos rs [] t h1
      (by intro x hx; exact absurd hx (List.not_mem_nil x)) ci h2
  have hz : ci.num_records ≠ 0 := by omega
  refine ⟨hpos, ?_, ?_, ?_⟩
  all_goals simp [printState, doubleDiv, hz]

theorem analyzeRecords_entries_have_records_witness :
    analyzeRecords [] [rBasic "CA"] =
      some [foldRecord (freshState "CA") (rBasic "CA")] ∧
    foldRecord (freshState "CA") (rBasic "CA") ∈
      [foldRecord (freshState "CA") (rBasic "CA")] ∧
    (1 ≤ (foldRecord (freshState "CA") (rBasic "CA")).num_records ∧
     (printState (foldRecord (freshState "CA") (rBasic "CA"))).avgHumidity.isSome = true ∧
     (printState (foldRecord (freshState "CA") (rBasic "CA"))).avgTemp.isSome = true ∧
     (printState (foldRecord (freshState "CA") (rBasic "CA"))).avgCloudCover.isSome = true) := by
  have h1 : analyzeRecords [] [rBasic "CA"] =
      some [foldRecord (freshState "CA") (rBasic "CA")] := rfl
  have h2 : foldRecord (freshState "CA") (rBasic "CA") ∈
      [foldRecord (freshState "CA") (rBasic "CA")] := List.mem_singleton.mpr rfl
  exact ⟨h1, h2,
    analyzeRecords_entries_have_records [rBasic "CA"] _ _ h1 h2⟩

end Climate
